import Mathlib

/-!
Verification of the ray-AABB picking subsystem (slab intersection test and
nearest-hit selection) of the CS-330 scene project.

The C++ source (`rayAabbSlab` and `pickObjectId` in `MainCode.cpp`) is embedded
shallowly: `float` arithmetic is modelled by exact rationals, the C++
`std::numeric_limits<float>::max()` constant by the exact value of `FLT_MAX`
(2^128 - 2^104), the out-parameter-plus-bool convention by `Option`.
The Milestone-One plan variant of the slab helper (which initialises `tmax`
to `std::numeric_limits<float>::infinity()` and swaps on `t1 > t2`) is
embedded separately with `WithTop` modelling the infinite initial bound.
-/

/-- 3D vector of rationals, modelling `glm::vec3`. -/
structure Vec3 where
  x : ℚ
  y : ℚ
  z : ℚ
deriving DecidableEq

/-- Component access, modelling `glm::vec3::operator[]`. -/
def Vec3.get (v : Vec3) : Fin 3 → ℚ
  | 0 => v.x
  | 1 => v.y
  | 2 => v.z

/-- `struct Ray { glm::vec3 origin; glm::vec3 dir; }`. -/
structure Ray where
  origin : Vec3
  dir : Vec3
deriving DecidableEq

/-- `struct AABB { glm::vec3 min; glm::vec3 max; }`. -/
structure AABB where
  min : Vec3
  max : Vec3
deriving DecidableEq

/-- `const float EPS = 1e-6f;` -/
def EPS : ℚ := 1 / 1000000

/-- `std::numeric_limits<float>::max()`, exactly `(2 - 2^-23) * 2^127`. -/
def FLT_MAX : ℚ := 2 ^ 128 - 2 ^ 104

/-- The origin-inside test of `rayAabbSlab`:
`r.origin.x >= box.min.x && r.origin.x <= box.max.x && ...` on all three axes. -/
def insideAABB (p : Vec3) (box : AABB) : Prop :=
  box.min.x ≤ p.x ∧ p.x ≤ box.max.x ∧
  box.min.y ≤ p.y ∧ p.y ≤ box.max.y ∧
  box.min.z ≤ p.z ∧ p.z ≤ box.max.z

instance (p : Vec3) (box : AABB) : Decidable (insideAABB p box) := by
  unfold insideAABB
  infer_instance

/-- The swap of the implemented slab helper:
`if (invDir < 0.0f) { float temp = t0; t0 = t1; t1 = temp; }`,
returning the (possibly swapped) pair `(t0, t1)`. -/
def slabSort (invDir t0 t1 : ℚ) : ℚ × ℚ :=
  if invDir < 0 then (t1, t0) else (t0, t1)

/-- The slab tightening and early-miss check of `rayAabbSlab`:
`tMin = (t0 > tMin) ? t0 : tMin; tMax = (t1 < tMax) ? t1 : tMax;`
`if (tMin > tMax) { return false; }`.
`s` is the (sorted) pair `(t0, t1)`, `st` the running `(tMin, tMax)`. -/
def slabTighten (s : ℚ × ℚ) (st : ℚ × ℚ) : Option (ℚ × ℚ) :=
  if (if s.1 > st.1 then s.1 else st.1) > (if s.2 < st.2 then s.2 else st.2) then
    none
  else
    some (if s.1 > st.1 then s.1 else st.1, if s.2 < st.2 then s.2 else st.2)

/-- One iteration of the slab loop of `rayAabbSlab` (loop body for `axis`):
the parallel-slab range check with the `EPS` guard, or
`invDir = 1.0f / r.dir[axis]; t0 = (box.min[axis] - r.origin[axis]) * invDir;`
`t1 = (box.max[axis] - r.origin[axis]) * invDir;` followed by the swap and
the tightening.  The state is the running `(tMin, tMax)` pair; `none`
models `return false`. -/
def slabAxis (r : Ray) (box : AABB) (axis : Fin 3) (st : ℚ × ℚ) : Option (ℚ × ℚ) :=
  if |r.dir.get axis| < EPS then
    if r.origin.get axis < box.min.get axis ∨ r.origin.get axis > box.max.get axis then
      none
    else
      some st
  else
    slabTighten
      (slabSort (1 / r.dir.get axis)
        ((box.min.get axis - r.origin.get axis) * (1 / r.dir.get axis))
        ((box.max.get axis - r.origin.get axis) * (1 / r.dir.get axis)))
      st

/-- The `for (int axis = 0; axis < 3; ++axis)` loop of `rayAabbSlab`. -/
def slabLoop (r : Ray) (box : AABB) : List (Fin 3) → ℚ × ℚ → Option (ℚ × ℚ)
  | [], st => some st
  | axis :: rest, st =>
    match slabAxis r box axis st with
    | none => none
    | some st1 => slabLoop r box rest st1

/-- The three axes, in loop order. -/
def axesList : List (Fin 3) := [0, 1, 2]

/-- The post-loop classification of `rayAabbSlab`:
`if (tMin >= 0.0f) { tNear = tMin; return true; }`
`if (tMax >= 0.0f) { tNear = tMax; return true; }`
`return false;` -/
def slabFinish (tMin tMax : ℚ) : Option ℚ :=
  if tMin ≥ 0 then some tMin
  else if tMax ≥ 0 then some tMax
  else none

/-- `static bool rayAabbSlab(const Ray& r, const AABB& box, float& tNear)`:
origin-inside pre-check (hit at `tNear = 0`), then the slab loop starting
from `tMin = 0.0f`, `tMax = std::numeric_limits<float>::max()`, then the
post-loop classification.  `some t` models `return true` with `tNear = t`,
`none` models `return false`. -/
def rayAabbSlab (r : Ray) (box : AABB) : Option ℚ :=
  if insideAABB r.origin box then some 0
  else
    match slabLoop r box axesList (0, FLT_MAX) with
    | none => none
    | some st => slabFinish st.1 st.2

/-- The hardcoded deterministic object list of `pickObjectId`. -/
def sceneObjects : List (Int × AABB) :=
  [ (0, ⟨⟨-1, 0, -1⟩, ⟨1, 2, 1⟩⟩),
    (1, ⟨⟨2, 0, -1/2⟩, ⟨3, 3/2, 1/2⟩⟩),
    (2, ⟨⟨-2, 0, 1⟩, ⟨-3/2, 1/2, 2⟩⟩),
    (3, ⟨⟨0, 0, 2⟩, ⟨1/2, 1, 5/2⟩⟩),
    (4, ⟨⟨-1/2, 0, -2⟩, ⟨1/2, 3/10, -3/2⟩⟩) ]

/-- The selection loop of `pickObjectId`: for each candidate, run
`rayAabbSlab` and keep it `if (tNear >= 0.0f && tNear < closestT)`.
The accumulator is `(closestId, closestT)`, initially `(-1, FLT_MAX)`. -/
def pickLoop (r : Ray) : List (Int × AABB) → Int → ℚ → Int
  | [], closestId, _ => closestId
  | obj :: rest, closestId, closestT =>
    match rayAabbSlab r obj.2 with
    | some tNear =>
      if tNear ≥ 0 ∧ tNear < closestT then
        pickLoop r rest obj.1 tNear
      else
        pickLoop r rest closestId closestT
    | none => pickLoop r rest closestId closestT

/-- The picker over an arbitrary ordered candidate sequence (the loop of
`pickObjectId`, abstracted over the candidate list as in the spec's
`pickNearest`). -/
def pickNearest (r : Ray) (candidates : List (Int × AABB)) : Int :=
  pickLoop r candidates (-1) FLT_MAX

/-- `static int pickObjectId(const Ray& r)`: the picker applied to the
hardcoded scene-object list. -/
def pickObjectId (r : Ray) : Int :=
  pickNearest r sceneObjects

/-- The swap of the plan variant: `if (t1 > t2) std::swap(t1, t2);`. -/
def planSort (ta tb : ℚ) : ℚ × ℚ :=
  if ta > tb then (tb, ta) else (ta, tb)

/-- The tightening of the plan variant:
`tmin = std::max(tmin, t1); tmax = std::min(tmax, t2);`
`if (tmin > tmax) return false;`, with `tmax` living in `WithTop` because it
starts at infinity. -/
def planTighten (s : ℚ × ℚ) (st : ℚ × WithTop ℚ) : Option (ℚ × WithTop ℚ) :=
  if ((max st.1 s.1 : ℚ) : WithTop ℚ) > min st.2 (s.2 : WithTop ℚ) then
    none
  else
    some (max st.1 s.1, min st.2 (s.2 : WithTop ℚ))

/-- One iteration of the Milestone-One plan variant of the slab helper:
no origin-inside pre-check, swap conditioned on `t1 > t2`, running `tmax`
starts at infinity (modelled by `WithTop`). -/
def planAxis (r : Ray) (box : AABB) (axis : Fin 3) (st : ℚ × WithTop ℚ) :
    Option (ℚ × WithTop ℚ) :=
  if |r.dir.get axis| < EPS then
    if r.origin.get axis < box.min.get axis ∨ r.origin.get axis > box.max.get axis then
      none
    else
      some st
  else
    planTighten
      (planSort ((box.min.get axis - r.origin.get axis) * (1 / r.dir.get axis))
        ((box.max.get axis - r.origin.get axis) * (1 / r.dir.get axis)))
      st

/-- The axis loop of the plan variant. -/
def planLoop (r : Ray) (box : AABB) : List (Fin 3) → ℚ × WithTop ℚ → Option (ℚ × WithTop ℚ)
  | [], st => some st
  | axis :: rest, st =>
    match planAxis r box axis st with
    | none => none
    | some st1 => planLoop r box rest st1

/-- The Milestone-One plan variant of `rayAabbSlab`:
`tmin = 0.0f, tmax = std::numeric_limits<float>::infinity()`, the axis loop,
then `tNear = (tmin >= 0.0f) ? tmin : 0.0f; return true;`. -/
def rayAabbSlabPlan (r : Ray) (box : AABB) : Option ℚ :=
  match planLoop r box axesList (0, ⊤) with
  | none => none
  | some st => some (if st.1 ≥ 0 then st.1 else 0)

/-! ## Unfolding equations for the loops (staged evaluation helpers) -/

theorem slabLoop_nil (r : Ray) (box : AABB) (st : ℚ × ℚ) :
    slabLoop r box [] st = some st := rfl

theorem slabLoop_cons_eq (r : Ray) (box : AABB) (a : Fin 3) (rest : List (Fin 3)) (st : ℚ × ℚ) :
    slabLoop r box (a :: rest) st =
      match slabAxis r box a st with
      | none => none
      | some st1 => slabLoop r box rest st1 := rfl

theorem slabLoop_cons_of_some (r : Ray) (box : AABB) (a : Fin 3) (rest : List (Fin 3))
    (st st1 : ℚ × ℚ) (h : slabAxis r box a st = some st1) :
    slabLoop r box (a :: rest) st = slabLoop r box rest st1 := by
  rw [slabLoop_cons_eq, h]

theorem slabLoop_cons_of_none (r : Ray) (box : AABB) (a : Fin 3) (rest : List (Fin 3))
    (st : ℚ × ℚ) (h : slabAxis r box a st = none) :
    slabLoop r box (a :: rest) st = none := by
  rw [slabLoop_cons_eq, h]

theorem rayAabbSlab_eq (r : Ray) (box : AABB) :
    rayAabbSlab r box =
      if insideAABB r.origin box then some 0
      else
        match slabLoop r box axesList (0, FLT_MAX) with
        | none => none
        | some st => slabFinish st.1 st.2 := rfl

theorem rayAabbSlab_of_inside (r : Ray) (box : AABB) (h : insideAABB r.origin box) :
    rayAabbSlab r box = some 0 := by
  rw [rayAabbSlab_eq, if_pos h]

theorem rayAabbSlab_of_loop_some (r : Ray) (box : AABB) (st : ℚ × ℚ)
    (hin : ¬ insideAABB r.origin box)
    (h : slabLoop r box axesList (0, FLT_MAX) = some st) :
    rayAabbSlab r box = slabFinish st.1 st.2 := by
  rw [rayAabbSlab_eq, if_neg hin, h]

theorem rayAabbSlab_of_loop_none (r : Ray) (box : AABB)
    (hin : ¬ insideAABB r.origin box)
    (h : slabLoop r box axesList (0, FLT_MAX) = none) :
    rayAabbSlab r box = none := by
  rw [rayAabbSlab_eq, if_neg hin, h]

theorem pickLoop_nil (r : Ray) (cid : Int) (ct : ℚ) :
    pickLoop r [] cid ct = cid := rfl

theorem pickLoop_cons_eq (r : Ray) (obj : Int × AABB) (rest : List (Int × AABB))
    (cid : Int) (ct : ℚ) :
    pickLoop r (obj :: rest) cid ct =
      match rayAabbSlab r obj.2 with
      | some tNear =>
        if tNear ≥ 0 ∧ tNear < ct then pickLoop r rest obj.1 tNear
        else pickLoop r rest cid ct
      | none => pickLoop r rest cid ct := rfl

theorem pickLoop_cons_of_take (r : Ray) (obj : Int × AABB) (rest : List (Int × AABB))
    (cid : Int) (ct t : ℚ) (h : rayAabbSlab r obj.2 = some t) (ht : t ≥ 0 ∧ t < ct) :
    pickLoop r (obj :: rest) cid ct = pickLoop r rest obj.1 t := by
  rw [pickLoop_cons_eq, h]
  exact if_pos ht

theorem pickLoop_cons_of_skip (r : Ray) (obj : Int × AABB) (rest : List (Int × AABB))
    (cid : Int) (ct t : ℚ) (h : rayAabbSlab r obj.2 = some t) (ht : ¬ (t ≥ 0 ∧ t < ct)) :
    pickLoop r (obj :: rest) cid ct = pickLoop r rest cid ct := by
  rw [pickLoop_cons_eq, h]
  exact if_neg ht

theorem pickLoop_cons_of_miss (r : Ray) (obj : Int × AABB) (rest : List (Int × AABB))
    (cid : Int) (ct : ℚ) (h : rayAabbSlab r obj.2 = none) :
    pickLoop r (obj :: rest) cid ct = pickLoop r rest cid ct := by
  rw [pickLoop_cons_eq, h]

theorem planLoop_nil (r : Ray) (box : AABB) (st : ℚ × WithTop ℚ) :
    planLoop r box [] st = some st := rfl

theorem planLoop_cons_eq (r : Ray) (box : AABB) (a : Fin 3) (rest : List (Fin 3))
    (st : ℚ × WithTop ℚ) :
    planLoop r box (a :: rest) st =
      match planAxis r box a st with
      | none => none
      | some st1 => planLoop r box rest st1 := rfl

theorem planLoop_cons_of_some (r : Ray) (box : AABB) (a : Fin 3) (rest : List (Fin 3))
    (st st1 : ℚ × WithTop ℚ) (h : planAxis r box a st = some st1) :
    planLoop r box (a :: rest) st = planLoop r box rest st1 := by
  rw [planLoop_cons_eq, h]

theorem planLoop_cons_of_none (r : Ray) (box : AABB) (a : Fin 3) (rest : List (Fin 3))
    (st : ℚ × WithTop ℚ) (h : planAxis r box a st = none) :
    planLoop r box (a :: rest) st = none := by
  rw [planLoop_cons_eq, h]

theorem rayAabbSlabPlan_eq (r : Ray) (box : AABB) :
    rayAabbSlabPlan r box =
      match planLoop r box axesList (0, ⊤) with
      | none => none
      | some st => some (if st.1 ≥ 0 then st.1 else 0) := rfl

theorem rayAabbSlabPlan_of_loop_some (r : Ray) (box : AABB) (st : ℚ × WithTop ℚ)
    (h : planLoop r box axesList (0, ⊤) = some st) :
    rayAabbSlabPlan r box = some (if st.1 ≥ 0 then st.1 else 0) := by
  rw [rayAabbSlabPlan_eq, h]

/-! ## The origin-inside test, componentwise -/

theorem insideAABB_iff (p : Vec3) (box : AABB) :
    insideAABB p box ↔ ∀ a : Fin 3, box.min.get a ≤ p.get a ∧ p.get a ≤ box.max.get a := by
  constructor
  · intro h a
    obtain ⟨h1, h2, h3, h4, h5, h6⟩ := h
    fin_cases a <;> simp [Vec3.get] <;> constructor <;> assumption
  · intro h
    have h0 := h 0
    have h1 := h 1
    have h2 := h 2
    simp [Vec3.get] at h0 h1 h2
    exact ⟨h0.1, h0.2, h1.1, h1.2, h2.1, h2.2⟩

/-! ## Basic facts about the tightening steps -/

theorem ite_gt_eq_max (a b : ℚ) : (if b > a then b else a) = max a b := by
  rcases le_or_lt b a with h | h
  · rw [if_neg (not_lt_of_le h), max_eq_left h]
  · rw [if_pos h, max_eq_right (le_of_lt h)]

theorem slabTighten_eq (s st : ℚ × ℚ) :
    slabTighten s st =
      if max st.1 s.1 > min st.2 s.2 then none
      else some (max st.1 s.1, min st.2 s.2) := by
  have h1 : (if s.1 > st.1 then s.1 else st.1) = max st.1 s.1 := ite_gt_eq_max st.1 s.1
  have h2 : (if s.2 < st.2 then s.2 else st.2) = min st.2 s.2 := by
    rcases le_or_lt st.2 s.2 with h | h
    · rw [if_neg (not_lt_of_le h), min_eq_left h]
    · rw [if_pos h, min_eq_right (le_of_lt h)]
  rw [slabTighten, h1, h2]

theorem slabTighten_some_iff (s st u : ℚ × ℚ) :
    slabTighten s st = some u ↔
      max st.1 s.1 ≤ min st.2 s.2 ∧ u = (max st.1 s.1, min st.2 s.2) := by
  rw [slabTighten_eq]
  rcases le_or_lt (max st.1 s.1) (min st.2 s.2) with h | h
  · rw [if_neg (not_lt_of_le h)]
    constructor
    · intro hh
      injection hh with hh
      exact ⟨h, hh.symm⟩
    · rintro ⟨-, rfl⟩
      rfl
  · rw [if_pos h]
    constructor
    · intro hh
      cases hh
    · rintro ⟨hc, -⟩
      exact absurd hc (not_le_of_lt h)

theorem planTighten_some_iff (s : ℚ × ℚ) (st : ℚ × WithTop ℚ) (u : ℚ × WithTop ℚ) :
    planTighten s st = some u ↔
      ((max st.1 s.1 : ℚ) : WithTop ℚ) ≤ min st.2 (s.2 : WithTop ℚ) ∧
        u = (max st.1 s.1, min st.2 (s.2 : WithTop ℚ)) := by
  rw [planTighten]
  rcases le_or_lt ((max st.1 s.1 : ℚ) : WithTop ℚ) (min st.2 (s.2 : WithTop ℚ)) with h | h
  · rw [if_neg (not_lt_of_le h)]
    constructor
    · intro hh
      injection hh with hh
      exact ⟨h, hh.symm⟩
    · rintro ⟨-, rfl⟩
      rfl
  · rw [if_pos h]
    constructor
    · intro hh
      cases hh
    · rintro ⟨hc, -⟩
      exact absurd hc (not_le_of_lt h)

/-- On success, one slab-loop iteration can only raise `tMin` and lower
`tMax`, and it leaves `tMin ≤ tMax` unless the incoming state was already
inverted (parallel axes keep the state unchanged). -/
theorem slabAxis_some_props (r : Ray) (box : AABB) (a : Fin 3) (st u : ℚ × ℚ)
    (h : slabAxis r box a st = some u) :
    st.1 ≤ u.1 ∧ u.2 ≤ st.2 ∧ (st.1 ≤ st.2 → u.1 ≤ u.2) := by
  rw [slabAxis] at h
  split at h
  · split at h
    · cases h
    · injection h with h
      subst h
      exact ⟨le_refl _, le_refl _, fun hh => hh⟩
  · rw [slabTighten_some_iff] at h
    obtain ⟨hle, rfl⟩ := h
    exact ⟨le_max_left _ _, min_le_left _ _, fun _ => hle⟩

/-- On success, the whole slab loop can only raise `tMin` and lower `tMax`,
and preserves `tMin ≤ tMax` along the way. -/
theorem slabLoop_some_props (r : Ray) (box : AABB) (axes : List (Fin 3)) :
    ∀ (st u : ℚ × ℚ), slabLoop r box axes st = some u →
      st.1 ≤ u.1 ∧ u.2 ≤ st.2 ∧ (st.1 ≤ st.2 → u.1 ≤ u.2) := by
  induction axes with
  | nil =>
    intro st u h
    injection h with h
    subst h
    exact ⟨le_refl _, le_refl _, fun hh => hh⟩
  | cons a rest ih =>
    intro st u h
    rw [slabLoop_cons_eq] at h
    cases ha : slabAxis r box a st with
    | none => rw [ha] at h; cases h
    | some st1 =>
      rw [ha] at h
      obtain ⟨h1, h2, h3⟩ := slabAxis_some_props r box a st st1 ha
      obtain ⟨h4, h5, h6⟩ := ih st1 u h
      exact ⟨le_trans h1 h4, le_trans h5 h2, fun hh => h6 (h3 hh)⟩

/-! ## Parallel-axis misses -/

theorem slabAxis_parallel_outside (r : Ray) (box : AABB) (a : Fin 3)
    (hpar : |r.dir.get a| < EPS)
    (hout : r.origin.get a < box.min.get a ∨ r.origin.get a > box.max.get a)
    (st : ℚ × ℚ) :
    slabAxis r box a st = none := by
  rw [slabAxis, if_pos hpar, if_pos hout]

theorem slabLoop_none_of_axis (r : Ray) (box : AABB) (a : Fin 3)
    (haxis : ∀ st, slabAxis r box a st = none) :
    ∀ (axes : List (Fin 3)), a ∈ axes → ∀ st, slabLoop r box axes st = none := by
  intro axes
  induction axes with
  | nil =>
    intro h
    cases h
  | cons b rest ih =>
    intro hmem st
    rcases List.mem_cons.mp hmem with rfl | hmem2
    · rw [slabLoop_cons_eq, haxis st]
    · cases hb : slabAxis r box b st with
      | none => exact slabLoop_cons_of_none _ _ _ _ _ hb
      | some st1 =>
        rw [slabLoop_cons_of_some _ _ _ _ _ _ hb]
        exact ih hmem2 st1

theorem every_axis_mem : ∀ a : Fin 3, a ∈ axesList := by decide

/-- If the direction is (near-)parallel to some axis and the origin lies
outside the box's range on that axis, `rayAabbSlab` misses. -/
theorem rayAabbSlab_none_of_parallel_outside (r : Ray) (box : AABB) (a : Fin 3)
    (hpar : |r.dir.get a| < EPS)
    (hout : r.origin.get a < box.min.get a ∨ r.origin.get a > box.max.get a) :
    rayAabbSlab r box = none := by
  have hnin : ¬ insideAABB r.origin box := by
    intro hin
    have hcomp := (insideAABB_iff r.origin box).mp hin a
    rcases hout with h | h
    · exact absurd hcomp.1 (not_le_of_lt h)
    · exact absurd hcomp.2 (not_le_of_lt h)
  exact rayAabbSlab_of_loop_none r box hnin
    (slabLoop_none_of_axis r box a (slabAxis_parallel_outside r box a hpar hout)
      axesList (every_axis_mem a) _)

/-! ## Nonnegativity of a reported hit distance -/

theorem rayAabbSlab_some_nonneg (r : Ray) (box : AABB) (t : ℚ)
    (h : rayAabbSlab r box = some t) : 0 ≤ t := by
  by_cases hin : insideAABB r.origin box
  · rw [rayAabbSlab_of_inside r box hin] at h
    injection h with h
    exact le_of_eq h
  · cases hl : slabLoop r box axesList (0, FLT_MAX) with
    | none =>
      rw [rayAabbSlab_of_loop_none r box hin hl] at h
      cases h
    | some st =>
      rw [rayAabbSlab_of_loop_some r box st hin hl] at h
      unfold slabFinish at h
      split at h
      · injection h with h
        rename_i hge
        exact le_of_le_of_eq hge h
      · split at h
        · injection h with h
          rename_i hge
          exact le_of_le_of_eq hge h
        · cases h

/-! ## Claim theorems: the Intersector -/

/-- C3: for every box with `min <= max` componentwise and every ray whose
origin lies within the box on all three axes, `rayAabbSlab` returns a hit
with `tNear = 0`. -/
theorem claimC3_origin_inside_hit (r : Ray) (box : AABB)
    (hbox : ∀ a : Fin 3, box.min.get a ≤ box.max.get a)
    (hin : ∀ a : Fin 3, box.min.get a ≤ r.origin.get a ∧ r.origin.get a ≤ box.max.get a) :
    rayAabbSlab r box = some 0 :=
  rayAabbSlab_of_inside r box ((insideAABB_iff r.origin box).mpr hin)

/-- Witness for C3 at a concrete ray and box. -/
theorem claimC3_witness :
    rayAabbSlab ⟨⟨1/2, 1/2, 1/2⟩, ⟨0, 0, 1⟩⟩ ⟨⟨0, 0, 0⟩, ⟨1, 1, 1⟩⟩ = some 0 :=
  claimC3_origin_inside_hit ⟨⟨1/2, 1/2, 1/2⟩, ⟨0, 0, 1⟩⟩ ⟨⟨0, 0, 0⟩, ⟨1, 1, 1⟩⟩
    (by intro a; fin_cases a <;> norm_num [Vec3.get])
    (by intro a; fin_cases a <;> norm_num [Vec3.get])

/-- C4: the post-loop classification of `rayAabbSlab` implements the
behind-origin policy on any loop state: a negative tightened `tMin` with
`tMax >= 0` yields a hit at `tNear = tMax`, and both negative yields a
miss.  Alongside, since `tMin` is initialized to `0`, any state actually
produced by the slab loop has `tMin >= 0` (so the policy branches are
never reached from a real ray and box). -/
theorem claimC4_behind_origin_policy :
    (∀ tMin tMax : ℚ, tMin < 0 → 0 ≤ tMax → slabFinish tMin tMax = some tMax) ∧
    (∀ tMin tMax : ℚ, tMin < 0 → tMax < 0 → slabFinish tMin tMax = none) ∧
    (∀ (r : Ray) (box : AABB) (st : ℚ × ℚ),
      slabLoop r box axesList (0, FLT_MAX) = some st → 0 ≤ st.1) := by
  refine ⟨?_, ?_, ?_⟩
  · intro a b ha hb
    unfold slabFinish
    rw [if_neg (not_le_of_lt ha), if_pos hb]
  · intro a b ha hb
    unfold slabFinish
    rw [if_neg (not_le_of_lt ha), if_neg (not_le_of_lt hb)]
  · intro r box st h
    exact (slabLoop_some_props r box axesList (0, FLT_MAX) st h).1

/-- Witness for C4 at concrete loop states. -/
theorem claimC4_witness :
    slabFinish (-1) 2 = some 2 ∧ slabFinish (-1) (-2) = none :=
  ⟨claimC4_behind_origin_policy.1 (-1) 2 (by norm_num) (by norm_num),
   claimC4_behind_origin_policy.2.1 (-1) (-2) (by norm_num) (by norm_num)⟩

/-- C5: for every ray and every box with `min <= max` componentwise,
whenever `rayAabbSlab` reports a hit the reported `tNear` is `>= 0`. -/
theorem claimC5_hit_nonneg (r : Ray) (box : AABB)
    (hbox : ∀ a : Fin 3, box.min.get a ≤ box.max.get a)
    (t : ℚ) (h : rayAabbSlab r box = some t) : 0 ≤ t :=
  rayAabbSlab_some_nonneg r box t h

/-- Witness for C5 at a concrete hit. -/
theorem claimC5_witness :
    rayAabbSlab ⟨⟨1/2, 1/2, 1/2⟩, ⟨0, 1, 0⟩⟩ ⟨⟨0, 0, 0⟩, ⟨1, 1, 1⟩⟩ = some 0 ∧ (0 : ℚ) ≤ 0 := by
  have he : rayAabbSlab ⟨⟨1/2, 1/2, 1/2⟩, ⟨0, 1, 0⟩⟩ ⟨⟨0, 0, 0⟩, ⟨1, 1, 1⟩⟩ = some 0 :=
    rayAabbSlab_of_inside _ _ (by norm_num [insideAABB])
  exact ⟨he, claimC5_hit_nonneg ⟨⟨1/2, 1/2, 1/2⟩, ⟨0, 1, 0⟩⟩ ⟨⟨0, 0, 0⟩, ⟨1, 1, 1⟩⟩
    (by intro a; fin_cases a <;> norm_num [Vec3.get]) 0 he⟩

/-- C6: if the ray direction has magnitude below `EPS` on some axis while
the origin lies outside the box's `[min, max]` range on that axis, the
Intersector reports a miss, whatever happens on the other axes. -/
theorem claimC6_parallel_outside_miss (r : Ray) (box : AABB) (a : Fin 3)
    (hpar : |r.dir.get a| < EPS)
    (hout : r.origin.get a < box.min.get a ∨ r.origin.get a > box.max.get a) :
    rayAabbSlab r box = none :=
  rayAabbSlab_none_of_parallel_outside r box a hpar hout

/-- Witness for C6 at a concrete ray and box. -/
theorem claimC6_witness :
    rayAabbSlab ⟨⟨5, 0, 0⟩, ⟨0, 0, 1⟩⟩ ⟨⟨0, 0, 0⟩, ⟨1, 1, 1⟩⟩ = none :=
  claimC6_parallel_outside_miss ⟨⟨5, 0, 0⟩, ⟨0, 0, 1⟩⟩ ⟨⟨0, 0, 0⟩, ⟨1, 1, 1⟩⟩ 0
    (by norm_num [Vec3.get, EPS])
    (Or.inr (by norm_num [Vec3.get]))

/-- C10: for a zero direction vector no division guard is ever passed, and
`rayAabbSlab` returns a hit with `tNear = 0` exactly when the origin is
componentwise inside the box, and a miss otherwise. -/
theorem claimC10_zero_dir_total (r : Ray) (box : AABB) (hd : r.dir = ⟨0, 0, 0⟩) :
    (insideAABB r.origin box → rayAabbSlab r box = some 0) ∧
    (¬ insideAABB r.origin box → rayAabbSlab r box = none) := by
  constructor
  · exact rayAabbSlab_of_inside r box
  · intro hnin
    have hax : ∃ a : Fin 3,
        ¬ (box.min.get a ≤ r.origin.get a ∧ r.origin.get a ≤ box.max.get a) := by
      by_contra hall
      push_neg at hall
      refine hnin ((insideAABB_iff r.origin box).mpr ?_)
      intro a
      exact hall a
    obtain ⟨a, ha⟩ := hax
    have hz : r.dir.get a = 0 := by
      fin_cases a <;> simp [hd, Vec3.get]
    have hpar : |r.dir.get a| < EPS := by
      rw [hz]
      norm_num [EPS]
    have hout : r.origin.get a < box.min.get a ∨ r.origin.get a > box.max.get a := by
      rcases not_and_or.mp ha with h | h
      · exact Or.inl (lt_of_not_le h)
      · exact Or.inr (lt_of_not_le h)
    exact rayAabbSlab_none_of_parallel_outside r box a hpar hout

/-- Witness for C10 at a concrete zero-direction ray, for both the inside
and the outside case. -/
theorem claimC10_witness :
    rayAabbSlab ⟨⟨1/2, 1/2, 1/2⟩, ⟨0, 0, 0⟩⟩ ⟨⟨0, 0, 0⟩, ⟨1, 1, 1⟩⟩ = some 0 ∧
    rayAabbSlab ⟨⟨7, 1/2, 1/2⟩, ⟨0, 0, 0⟩⟩ ⟨⟨0, 0, 0⟩, ⟨1, 1, 1⟩⟩ = none :=
  ⟨(claimC10_zero_dir_total ⟨⟨1/2, 1/2, 1/2⟩, ⟨0, 0, 0⟩⟩ ⟨⟨0, 0, 0⟩, ⟨1, 1, 1⟩⟩ rfl).1
      (by norm_num [insideAABB]),
   (claimC10_zero_dir_total ⟨⟨7, 1/2, 1/2⟩, ⟨0, 0, 0⟩⟩ ⟨⟨0, 0, 0⟩, ⟨1, 1, 1⟩⟩ rfl).2
      (by norm_num [insideAABB])⟩

/-! ## Monotonicity of the Intersector in the box -/

theorem slabSort_shift_mono (inv o bmin bmax bminp bmaxp : ℚ)
    (h1 : bminp ≤ bmin) (h2 : bmax ≤ bmaxp) :
    (slabSort inv ((bminp - o) * inv) ((bmaxp - o) * inv)).1 ≤
      (slabSort inv ((bmin - o) * inv) ((bmax - o) * inv)).1 ∧
    (slabSort inv ((bmin - o) * inv) ((bmax - o) * inv)).2 ≤
      (slabSort inv ((bminp - o) * inv) ((bmaxp - o) * inv)).2 := by
  unfold slabSort
  by_cases hinv : inv < 0
  · rw [if_pos hinv, if_pos hinv]
    constructor
    · exact mul_le_mul_of_nonpos_right (sub_le_sub_right h2 o) (le_of_lt hinv)
    · exact mul_le_mul_of_nonpos_right (sub_le_sub_right h1 o) (le_of_lt hinv)
  · rw [if_neg hinv, if_neg hinv]
    have hinv2 : 0 ≤ inv := le_of_not_lt hinv
    constructor
    · exact mul_le_mul_of_nonneg_right (sub_le_sub_right h1 o) hinv2
    · exact mul_le_mul_of_nonneg_right (sub_le_sub_right h2 o) hinv2

theorem slabAxis_mono (r : Ray) (B Bp : AABB) (a : Fin 3)
    (hmin : Bp.min.get a ≤ B.min.get a) (hmax : B.max.get a ≤ Bp.max.get a)
    (st stp u : ℚ × ℚ) (hst1 : stp.1 ≤ st.1) (hst2 : st.2 ≤ stp.2)
    (h : slabAxis r B a st = some u) :
    ∃ up, slabAxis r Bp a stp = some up ∧ up.1 ≤ u.1 ∧ u.2 ≤ up.2 := by
  rw [slabAxis] at h
  rw [slabAxis]
  split at h
  · rename_i hpar
    rw [if_pos hpar]
    split at h
    · cases h
    · rename_i hrange
      injection h with h
      subst h
      push_neg at hrange
      have hr1 : ¬ (r.origin.get a < Bp.min.get a ∨ r.origin.get a > Bp.max.get a) := by
        push_neg
        exact ⟨le_trans hmin (le_of_not_lt (not_lt_of_le hrange.1)),
               le_trans hrange.2 hmax⟩
      rw [if_neg hr1]
      exact ⟨stp, rfl, hst1, hst2⟩
  · rename_i hpar
    rw [if_neg hpar]
    rw [slabTighten_some_iff] at h
    obtain ⟨hle, rfl⟩ := h
    obtain ⟨hs1, hs2⟩ := slabSort_shift_mono (1 / r.dir.get a) (r.origin.get a)
      (B.min.get a) (B.max.get a) (Bp.min.get a) (Bp.max.get a) hmin hmax
    refine ⟨_, (slabTighten_some_iff _ _ _).mpr ⟨?_, rfl⟩, ?_, ?_⟩
    · calc max stp.1 (slabSort (1 / r.dir.get a)
            ((Bp.min.get a - r.origin.get a) * (1 / r.dir.get a))
            ((Bp.max.get a - r.origin.get a) * (1 / r.dir.get a))).1
          ≤ max st.1 (slabSort (1 / r.dir.get a)
            ((B.min.get a - r.origin.get a) * (1 / r.dir.get a))
            ((B.max.get a - r.origin.get a) * (1 / r.dir.get a))).1 := max_le_max hst1 hs1
        _ ≤ min st.2 (slabSort (1 / r.dir.get a)
            ((B.min.get a - r.origin.get a) * (1 / r.dir.get a))
            ((B.max.get a - r.origin.get a) * (1 / r.dir.get a))).2 := hle
        _ ≤ min stp.2 (slabSort (1 / r.dir.get a)
            ((Bp.min.get a - r.origin.get a) * (1 / r.dir.get a))
            ((Bp.max.get a - r.origin.get a) * (1 / r.dir.get a))).2 := min_le_min hst2 hs2
    · exact max_le_max hst1 hs1
    · exact min_le_min hst2 hs2

theorem slabLoop_mono (r : Ray) (B Bp : AABB)
    (hmin : ∀ a : Fin 3, Bp.min.get a ≤ B.min.get a)
    (hmax : ∀ a : Fin 3, B.max.get a ≤ Bp.max.get a) :
    ∀ (axes : List (Fin 3)) (st stp u : ℚ × ℚ), stp.1 ≤ st.1 → st.2 ≤ stp.2 →
      slabLoop r B axes st = some u →
      ∃ up, slabLoop r Bp axes stp = some up ∧ up.1 ≤ u.1 ∧ u.2 ≤ up.2 := by
  intro axes
  induction axes with
  | nil =>
    intro st stp u h1 h2 h
    injection h with h
    subst h
    exact ⟨stp, rfl, h1, h2⟩
  | cons a rest ih =>
    intro st stp u h1 h2 h
    rw [slabLoop_cons_eq] at h
    cases ha : slabAxis r B a st with
    | none =>
      rw [ha] at h
      cases h
    | some st1 =>
      rw [ha] at h
      obtain ⟨st1p, hap, hb1, hb2⟩ :=
        slabAxis_mono r B Bp a (hmin a) (hmax a) st stp st1 h1 h2 ha
      obtain ⟨up, hlp, hc1, hc2⟩ := ih st1 st1p u hb1 hb2 h
      exact ⟨up, by rw [slabLoop_cons_of_some _ _ _ _ _ _ hap]; exact hlp, hc1, hc2⟩

/-- C7: enlarging a box componentwise never turns a hit into a miss for the
same ray. -/
theorem claimC7_enclosing_box_hit (r : Ray) (B Bp : AABB)
    (hB : ∀ a : Fin 3, B.min.get a ≤ B.max.get a)
    (hBp : ∀ a : Fin 3, Bp.min.get a ≤ Bp.max.get a)
    (hmin : ∀ a : Fin 3, Bp.min.get a ≤ B.min.get a)
    (hmax : ∀ a : Fin 3, B.max.get a ≤ Bp.max.get a)
    (t : ℚ) (h : rayAabbSlab r B = some t) :
    ∃ tp, rayAabbSlab r Bp = some tp := by
  by_cases hinp : insideAABB r.origin Bp
  · exact ⟨0, rayAabbSlab_of_inside r Bp hinp⟩
  · have hinB : ¬ insideAABB r.origin B := by
      intro hin
      apply hinp
      rw [insideAABB_iff] at hin ⊢
      intro a
      exact ⟨le_trans (hmin a) (hin a).1, le_trans (hin a).2 (hmax a)⟩
    cases hl : slabLoop r B axesList (0, FLT_MAX) with
    | none =>
      rw [rayAabbSlab_of_loop_none r B hinB hl] at h
      cases h
    | some st =>
      obtain ⟨stp, hlp, -, -⟩ := slabLoop_mono r B Bp hmin hmax axesList
        (0, FLT_MAX) (0, FLT_MAX) st (le_refl 0) (le_refl FLT_MAX) hl
      have h0 : 0 ≤ stp.1 := (slabLoop_some_props r Bp axesList (0, FLT_MAX) stp hlp).1
      refine ⟨stp.1, ?_⟩
      rw [rayAabbSlab_of_loop_some r Bp stp hinp hlp]
      unfold slabFinish
      rw [if_pos h0]

theorem pickLoop_spec (r : Ray) :
    ∀ (objs : List (Int × AABB)) (cid : Int) (ct : ℚ),
      (pickLoop r objs cid ct = cid ∧
        ∀ p ∈ objs, ∀ t, rayAabbSlab r p.2 = some t → ¬ (0 ≤ t ∧ t < ct)) ∨
      (∃ k : Fin objs.length, ∃ t,
        rayAabbSlab r (objs.get k).2 = some t ∧ 0 ≤ t ∧ t < ct ∧
        pickLoop r objs cid ct = (objs.get k).1 ∧
        (∀ j : Fin objs.length, (j : ℕ) < (k : ℕ) →
          ∀ u, rayAabbSlab r (objs.get j).2 = some u → 0 ≤ u → t < u) ∧
        (∀ j : Fin objs.length, ∀ u, rayAabbSlab r (objs.get j).2 = some u →
          0 ≤ u → u < ct → t ≤ u)) := by
  intro objs
  induction objs with
  | nil =>
    intro cid ct
    left
    refine ⟨pickLoop_nil r cid ct, ?_⟩
    intro p hp
    cases hp
  | cons obj rest ih =>
    intro cid ct
    cases hob : rayAabbSlab r obj.2 with
    | none =>
      rcases ih cid ct with ⟨hres, hnone⟩ | ⟨k, t, hget, h0t, htct, hres, hfirst, hmin⟩
      · left
        refine ⟨?_, ?_⟩
        · rw [pickLoop_cons_of_miss r obj rest cid ct hob]
          exact hres
        · intro p hp u hu
          rcases List.mem_cons.mp hp with rfl | hp2
          · rw [hob] at hu
            cases hu
          · exact hnone p hp2 u hu
      · right
        refine ⟨k.succ, t, ?_, h0t, htct, ?_, ?_, ?_⟩
        · rw [List.get_cons_succ']
          exact hget
        · rw [pickLoop_cons_of_miss r obj rest cid ct hob, List.get_cons_succ']
          exact hres
        · intro j hj u hu hu0
          rcases j with ⟨jv, hjv⟩
          cases jv with
          | zero =>
            have hu3 : rayAabbSlab r obj.2 = some u := hu
            rw [hob] at hu3
            cases hu3
          | succ i =>
            have hi : i < rest.length := Nat.lt_of_succ_lt_succ hjv
            have hu2 : rayAabbSlab r (rest.get ⟨i, hi⟩).2 = some u := by
              rw [← List.get_cons_succ (a := obj)]
              exact hu
            exact hfirst ⟨i, hi⟩ (Nat.lt_of_succ_lt_succ hj) u hu2 hu0
        · intro j u hu hu0 huct
          rcases j with ⟨jv, hjv⟩
          cases jv with
          | zero =>
            have hu3 : rayAabbSlab r obj.2 = some u := hu
            rw [hob] at hu3
            cases hu3
          | succ i =>
            have hi : i < rest.length := Nat.lt_of_succ_lt_succ hjv
            have hu2 : rayAabbSlab r (rest.get ⟨i, hi⟩).2 = some u := by
              rw [← List.get_cons_succ (a := obj)]
              exact hu
            exact hmin ⟨i, hi⟩ u hu2 hu0 huct
    | some t0 =>
      by_cases hcond : 0 ≤ t0 ∧ t0 < ct
      · have hstep : pickLoop r (obj :: rest) cid ct = pickLoop r rest obj.1 t0 :=
          pickLoop_cons_of_take r obj rest cid ct t0 hob ⟨hcond.1, hcond.2⟩
        rcases ih obj.1 t0 with ⟨hres, hnone⟩ | ⟨k, t, hget, h0t, htt0, hres, hfirst, hmin⟩
        · right
          refine ⟨⟨0, Nat.succ_pos rest.length⟩, t0, ?_, hcond.1, hcond.2, ?_, ?_, ?_⟩
          · exact hob
          · rw [hstep]
            exact hres
          · intro j hj u hu hu0
            exact absurd hj (Nat.not_lt_zero _)
          · intro j u hu hu0 huct
            rcases j with ⟨jv, hjv⟩
            cases jv with
            | zero =>
              have hu3 : rayAabbSlab r obj.2 = some u := hu
              rw [hob] at hu3
              injection hu3 with hu4
              exact le_of_eq hu4
            | succ i =>
              have hi : i < rest.length := Nat.lt_of_succ_lt_succ hjv
              have hu2 : rayAabbSlab r (rest.get ⟨i, hi⟩).2 = some u := by
                rw [← List.get_cons_succ (a := obj)]
                exact hu
              have := hnone (rest.get ⟨i, hi⟩) (List.get_mem rest _ _) u hu2
              rcases lt_or_le u t0 with hlt | hle
              · exact absurd ⟨hu0, hlt⟩ this
              · exact hle
        · right
          refine ⟨k.succ, t, ?_, h0t, lt_trans htt0 hcond.2, ?_, ?_, ?_⟩
          · rw [List.get_cons_succ']
            exact hget
          · rw [hstep, List.get_cons_succ']
            exact hres
          · intro j hj u hu hu0
            rcases j with ⟨jv, hjv⟩
            cases jv with
            | zero =>
              have hu3 : rayAabbSlab r obj.2 = some u := hu
              rw [hob] at hu3
              injection hu3 with hu4
              subst hu4
              exact htt0
            | succ i =>
              have hi : i < rest.length := Nat.lt_of_succ_lt_succ hjv
              have hu2 : rayAabbSlab r (rest.get ⟨i, hi⟩).2 = some u := by
                rw [← List.get_cons_succ (a := obj)]
                exact hu
              exact hfirst ⟨i, hi⟩ (Nat.lt_of_succ_lt_succ hj) u hu2 hu0
          · intro j u hu hu0 huct
            rcases j with ⟨jv, hjv⟩
            cases jv with
            | zero =>
              have hu3 : rayAabbSlab r obj.2 = some u := hu
              rw [hob] at hu3
              injection hu3 with hu4
              subst hu4
              exact le_of_lt htt0
            | succ i =>
              have hi : i < rest.length := Nat.lt_of_succ_lt_succ hjv
              have hu2 : rayAabbSlab r (rest.get ⟨i, hi⟩).2 = some u := by
                rw [← List.get_cons_succ (a := obj)]
                exact hu
              rcases lt_or_le u t0 with hlt | hle
              · exact hmin ⟨i, hi⟩ u hu2 hu0 hlt
              · exact le_trans (le_of_lt htt0) hle
      · have hstep : pickLoop r (obj :: rest) cid ct = pickLoop r rest cid ct :=
          pickLoop_cons_of_skip r obj rest cid ct t0 hob
            (by intro hc; exact hcond ⟨hc.1, hc.2⟩)
        rcases ih cid ct with ⟨hres, hnone⟩ | ⟨k, t, hget, h0t, htct, hres, hfirst, hmin⟩
        · left
          refine ⟨?_, ?_⟩
          · rw [hstep]
            exact hres
          · intro p hp u hu
            rcases List.mem_cons.mp hp with rfl | hp2
            · rw [hob] at hu
              injection hu with hu
              subst hu
              exact hcond
            · exact hnone p hp2 u hu
        · right
          refine ⟨k.succ, t, ?_, h0t, htct, ?_, ?_, ?_⟩
          · rw [List.get_cons_succ']
            exact hget
          · rw [hstep, List.get_cons_succ']
            exact hres
          · intro j hj u hu hu0
            rcases j with ⟨jv, hjv⟩
            cases jv with
            | zero =>
              have hu3 : rayAabbSlab r obj.2 = some u := hu
              rw [hob] at hu3
              injection hu3 with hu4
              rw [← hu4]
              have h0t0 : 0 ≤ t0 := by rw [hu4]; exact hu0
              have hct : ct ≤ t0 := le_of_not_lt (fun hc => hcond ⟨h0t0, hc⟩)
              exact lt_of_lt_of_le htct hct
            | succ i =>
              have hi : i < rest.length := Nat.lt_of_succ_lt_succ hjv
              have hu2 : rayAabbSlab r (rest.get ⟨i, hi⟩).2 = some u := by
                rw [← List.get_cons_succ (a := obj)]
                exact hu
              exact hfirst ⟨i, hi⟩ (Nat.lt_of_succ_lt_succ hj) u hu2 hu0
          · intro j u hu hu0 huct
            rcases j with ⟨jv, hjv⟩
            cases jv with
            | zero =>
              have hu3 : rayAabbSlab r obj.2 = some u := hu
              rw [hob] at hu3
              injection hu3 with hu4
              subst hu4
              exact absurd ⟨hu0, huct⟩ hcond
            | succ i =>
              have hi : i < rest.length := Nat.lt_of_succ_lt_succ hjv
              have hu2 : rayAabbSlab r (rest.get ⟨i, hi⟩).2 = some u := by
                rw [← List.get_cons_succ (a := obj)]
                exact hu
              exact hmin ⟨i, hi⟩ u hu2 hu0 huct

/-! ## Claim theorems: the Picker -/

/-- C1 (amended): over any candidate sequence the picker returns the
identifier of a hit candidate whose `tNear` is minimal among all hits,
provided some candidate is hit with `tNear` strictly below the initial
`closestT` value `FLT_MAX`; if no candidate is hit below `FLT_MAX` it
returns the sentinel `-1`.  (A hit at exactly `tNear = FLT_MAX` is treated
as no hit, which is what forces the amendment.) -/
theorem claimC1_nearest_selection (r : Ray) (cands : List (Int × AABB)) :
    ((∀ p ∈ cands, ∀ t, rayAabbSlab r p.2 = some t → ¬ t < FLT_MAX) →
      pickNearest r cands = -1) ∧
    ((∃ p ∈ cands, ∃ t, rayAabbSlab r p.2 = some t ∧ t < FLT_MAX) →
      ∃ k : Fin cands.length, ∃ t,
        pickNearest r cands = (cands.get k).1 ∧
        rayAabbSlab r (cands.get k).2 = some t ∧ t < FLT_MAX ∧
        ∀ p ∈ cands, ∀ u, rayAabbSlab r p.2 = some u → t ≤ u) := by
  constructor
  · intro hnone
    rcases pickLoop_spec r cands (-1) FLT_MAX with ⟨hres, -⟩ |
      ⟨k, t, hget, h0t, htct, hres, -, -⟩
    · exact hres
    · exact absurd htct (hnone _ (List.get_mem cands _ _) t hget)
  · rintro ⟨p, hp, t0, hp2, hp3⟩
    rcases pickLoop_spec r cands (-1) FLT_MAX with ⟨-, hnone⟩ |
      ⟨k, t, hget, h0t, htct, hres, hfirst, hmin⟩
    · exact absurd ⟨rayAabbSlab_some_nonneg r p.2 t0 hp2, hp3⟩ (hnone p hp t0 hp2)
    · refine ⟨k, t, hres, hget, htct, ?_⟩
      intro q hq u hu
      obtain ⟨j, hj⟩ := List.mem_iff_get.mp hq
      rcases lt_or_le u FLT_MAX with hlt | hle
      · refine hmin j u ?_ (rayAabbSlab_some_nonneg r q.2 u hu) hlt
        rw [hj]
        exact hu
      · exact le_trans (le_of_lt htct) hle

/-- C2 (amended): over any candidate sequence, if candidate `k1` attains the
minimal hit `tNear` value `t`, every candidate before `k1` is hit only at a
strictly larger `tNear`, a later candidate `k2` ties exactly at `t`, and
`t < FLT_MAX`, then the picker returns the identifier of `k1`, the earlier
of the tied candidates.  (A tie at exactly `tNear = FLT_MAX` is skipped
entirely, which is what forces the amendment.) -/
theorem claimC2_tiebreak_first (r : Ray) (cands : List (Int × AABB))
    (k1 k2 : Fin cands.length) (t : ℚ)
    (hk : (k1 : ℕ) < (k2 : ℕ))
    (h1 : rayAabbSlab r (cands.get k1).2 = some t)
    (h2 : rayAabbSlab r (cands.get k2).2 = some t)
    (hmin : ∀ p ∈ cands, ∀ u, rayAabbSlab r p.2 = some u → t ≤ u)
    (hfirst : ∀ j : Fin cands.length, (j : ℕ) < (k1 : ℕ) →
      ∀ u, rayAabbSlab r (cands.get j).2 = some u → t < u)
    (hF : t < FLT_MAX) :
    pickNearest r cands = (cands.get k1).1 := by
  rcases pickLoop_spec r cands (-1) FLT_MAX with ⟨-, hnone⟩ |
    ⟨k, t2, hget, h0t, htct, hres, hfirst2, hmin2⟩
  · exact absurd ⟨rayAabbSlab_some_nonneg r _ t h1, hF⟩
      (hnone _ (List.get_mem cands _ _) t h1)
  · have htle : t ≤ t2 := hmin _ (List.get_mem cands _ _) t2 hget
    have ht2le : t2 ≤ t :=
      hmin2 k1 t h1 (rayAabbSlab_some_nonneg r _ t h1) hF
    rcases lt_trichotomy (k : ℕ) (k1 : ℕ) with hlt | heqk | hgt
    · have hcontra : t < t2 := hfirst k hlt t2 hget
      exact absurd ht2le (not_le_of_lt hcontra)
    · have hkk : k = k1 := Fin.ext heqk
      rw [hkk] at hres
      exact hres
    · have hcontra : t2 < t :=
        hfirst2 k1 hgt t h1 (rayAabbSlab_some_nonneg r _ t h1)
      exact absurd htle (not_le_of_lt hcontra)

/-- The hardcoded list carries exactly the identifiers 0 to 4. -/
theorem sceneObjects_ids :
    ∀ k : Fin sceneObjects.length,
      (sceneObjects.get k).1 = 0 ∨ (sceneObjects.get k).1 = 1 ∨
      (sceneObjects.get k).1 = 2 ∨ (sceneObjects.get k).1 = 3 ∨
      (sceneObjects.get k).1 = 4 := by
  decide

/-- C9: `pickObjectId` returns `-1` or one of the hardcoded identifiers
0..4, and whenever it returns a nonnegative identifier, that identifier's
box is hit with the minimal `tNear` among all hit candidates. -/
theorem claimC9_pickObjectId_sound (r : Ray) :
    (pickObjectId r = -1 ∨ pickObjectId r = 0 ∨ pickObjectId r = 1 ∨
      pickObjectId r = 2 ∨ pickObjectId r = 3 ∨ pickObjectId r = 4) ∧
    (0 ≤ pickObjectId r →
      ∃ box t, (pickObjectId r, box) ∈ sceneObjects ∧
        rayAabbSlab r box = some t ∧
        ∀ p ∈ sceneObjects, ∀ u, rayAabbSlab r p.2 = some u → t ≤ u) := by
  rcases pickLoop_spec r sceneObjects (-1) FLT_MAX with ⟨hres, -⟩ |
    ⟨k, t, hget, h0t, htct, hres, -, hmin⟩
  · constructor
    · exact Or.inl hres
    · intro h0
      have hres2 : pickObjectId r = -1 := hres
      rw [hres2] at h0
      norm_num at h0
  · have hres2 : pickObjectId r = (sceneObjects.get k).1 := hres
    constructor
    · rcases sceneObjects_ids k with h | h | h | h | h
      · exact Or.inr (Or.inl (hres2.trans h))
      · exact Or.inr (Or.inr (Or.inl (hres2.trans h)))
      · exact Or.inr (Or.inr (Or.inr (Or.inl (hres2.trans h))))
      · exact Or.inr (Or.inr (Or.inr (Or.inr (Or.inl (hres2.trans h)))))
      · exact Or.inr (Or.inr (Or.inr (Or.inr (Or.inr (hres2.trans h)))))
    · intro h0
      refine ⟨(sceneObjects.get k).2, t, ?_, hget, ?_⟩
      · rw [hres2, Prod.mk.eta]
        exact List.get_mem sceneObjects _ _
      · intro p hp u hu
        rcases lt_or_le u FLT_MAX with hlt | hle
        · obtain ⟨j, hj⟩ := List.mem_iff_get.mp hp
          refine hmin j u ?_ (rayAabbSlab_some_nonneg r p.2 u hu) hlt
          rw [hj]
          exact hu
        · exact le_trans (le_of_lt htct) hle

/-! ## Concrete evaluations -/

/-- A sample hit: ray from `(-2, 1/2, 1/2)` along `+x` against the unit box,
entering at `t = 2`. -/
theorem evalHit_unitBox :
    rayAabbSlab ⟨⟨-2, 1/2, 1/2⟩, ⟨1, 0, 0⟩⟩ ⟨⟨0, 0, 0⟩, ⟨1, 1, 1⟩⟩ = some 2 := by
  have a0 : slabAxis ⟨⟨-2, 1/2, 1/2⟩, ⟨1, 0, 0⟩⟩ ⟨⟨0, 0, 0⟩, ⟨1, 1, 1⟩⟩ 0
      (0, FLT_MAX) = some (2, 3) := by
    norm_num [slabAxis, slabSort, slabTighten, Vec3.get, EPS, FLT_MAX]
  have a1 : slabAxis ⟨⟨-2, 1/2, 1/2⟩, ⟨1, 0, 0⟩⟩ ⟨⟨0, 0, 0⟩, ⟨1, 1, 1⟩⟩ 1
      (2, 3) = some (2, 3) := by
    norm_num [slabAxis, Vec3.get, EPS]
  have a2 : slabAxis ⟨⟨-2, 1/2, 1/2⟩, ⟨1, 0, 0⟩⟩ ⟨⟨0, 0, 0⟩, ⟨1, 1, 1⟩⟩ 2
      (2, 3) = some (2, 3) := by
    norm_num [slabAxis, Vec3.get, EPS]
  have hloop : slabLoop ⟨⟨-2, 1/2, 1/2⟩, ⟨1, 0, 0⟩⟩ ⟨⟨0, 0, 0⟩, ⟨1, 1, 1⟩⟩
      axesList (0, FLT_MAX) = some (2, 3) := by
    rw [show axesList = [0, 1, 2] from rfl,
      slabLoop_cons_of_some _ _ _ _ _ _ a0,
      slabLoop_cons_of_some _ _ _ _ _ _ a1,
      slabLoop_cons_of_some _ _ _ _ _ _ a2,
      slabLoop_nil]
  rw [rayAabbSlab_of_loop_some _ _ (2, 3) (by norm_num [insideAABB]) hloop]
  norm_num [slabFinish]

/-- Witness for C1: a candidate list with one hit candidate, where the
picker indeed returns that candidate's identifier with the minimal hit. -/
theorem claimC1_witness :
    ∃ k : Fin ([((9 : Int), (⟨⟨0, 0, 0⟩, ⟨1, 1, 1⟩⟩ : AABB))].length), ∃ t,
      pickNearest ⟨⟨-2, 1/2, 1/2⟩, ⟨1, 0, 0⟩⟩ [(9, ⟨⟨0, 0, 0⟩, ⟨1, 1, 1⟩⟩)] =
        (([((9 : Int), (⟨⟨0, 0, 0⟩, ⟨1, 1, 1⟩⟩ : AABB))]).get k).1 ∧
      rayAabbSlab ⟨⟨-2, 1/2, 1/2⟩, ⟨1, 0, 0⟩⟩
        (([((9 : Int), (⟨⟨0, 0, 0⟩, ⟨1, 1, 1⟩⟩ : AABB))]).get k).2 = some t ∧
      t < FLT_MAX ∧
      ∀ p ∈ [((9 : Int), (⟨⟨0, 0, 0⟩, ⟨1, 1, 1⟩⟩ : AABB))], ∀ u,
        rayAabbSlab ⟨⟨-2, 1/2, 1/2⟩, ⟨1, 0, 0⟩⟩ p.2 = some u → t ≤ u :=
  (claimC1_nearest_selection ⟨⟨-2, 1/2, 1/2⟩, ⟨1, 0, 0⟩⟩
      [(9, ⟨⟨0, 0, 0⟩, ⟨1, 1, 1⟩⟩)]).2
    ⟨(9, ⟨⟨0, 0, 0⟩, ⟨1, 1, 1⟩⟩), by simp, 2, evalHit_unitBox, by norm_num [FLT_MAX]⟩

/-- Witness for C2: two candidates carrying the same box tie exactly, and
the picker returns the identifier of the earlier one. -/
theorem claimC2_witness :
    pickNearest ⟨⟨-2, 1/2, 1/2⟩, ⟨1, 0, 0⟩⟩
        [(3, ⟨⟨0, 0, 0⟩, ⟨1, 1, 1⟩⟩), (4, ⟨⟨0, 0, 0⟩, ⟨1, 1, 1⟩⟩)] =
      (([((3 : Int), (⟨⟨0, 0, 0⟩, ⟨1, 1, 1⟩⟩ : AABB)),
         (4, ⟨⟨0, 0, 0⟩, ⟨1, 1, 1⟩⟩)]).get ⟨0, by decide⟩).1 :=
  claimC2_tiebreak_first ⟨⟨-2, 1/2, 1/2⟩, ⟨1, 0, 0⟩⟩
    [(3, ⟨⟨0, 0, 0⟩, ⟨1, 1, 1⟩⟩), (4, ⟨⟨0, 0, 0⟩, ⟨1, 1, 1⟩⟩)]
    ⟨0, by decide⟩ ⟨1, by decide⟩ 2 (by decide)
    evalHit_unitBox evalHit_unitBox
    (by
      intro p hp u hu
      rcases List.mem_cons.mp hp with rfl | hp2
      · have hu2 : rayAabbSlab ⟨⟨-2, 1/2, 1/2⟩, ⟨1, 0, 0⟩⟩
            ⟨⟨0, 0, 0⟩, ⟨1, 1, 1⟩⟩ = some u := hu
        rw [evalHit_unitBox] at hu2
        injection hu2 with hu3
        exact le_of_eq hu3
      · rcases List.mem_cons.mp hp2 with rfl | hp3
        · have hu2 : rayAabbSlab ⟨⟨-2, 1/2, 1/2⟩, ⟨1, 0, 0⟩⟩
              ⟨⟨0, 0, 0⟩, ⟨1, 1, 1⟩⟩ = some u := hu
          rw [evalHit_unitBox] at hu2
          injection hu2 with hu3
          exact le_of_eq hu3
        · cases hp3)
    (by
      intro j hj u hu
      exact absurd hj (Nat.not_lt_zero _))
    (by norm_num [FLT_MAX])

/-- Witness for C7: the unit-box hit survives enlarging the box to
`[-1, 2]^3`. -/
theorem claimC7_witness :
    ∃ tp, rayAabbSlab ⟨⟨-2, 1/2, 1/2⟩, ⟨1, 0, 0⟩⟩
      ⟨⟨-1, -1, -1⟩, ⟨2, 2, 2⟩⟩ = some tp :=
  claimC7_enclosing_box_hit ⟨⟨-2, 1/2, 1/2⟩, ⟨1, 0, 0⟩⟩
    ⟨⟨0, 0, 0⟩, ⟨1, 1, 1⟩⟩ ⟨⟨-1, -1, -1⟩, ⟨2, 2, 2⟩⟩
    (by intro a; fin_cases a <;> norm_num [Vec3.get])
    (by intro a; fin_cases a <;> norm_num [Vec3.get])
    (by intro a; fin_cases a <;> norm_num [Vec3.get])
    (by intro a; fin_cases a <;> norm_num [Vec3.get])
    2 evalHit_unitBox

/-- An extreme hit at exactly `tNear = FLT_MAX`: ray from
`(1 - FLT_MAX, 1/2, 1/2)` along `+x` against the box `[1,2]x[0,1]x[0,1]`. -/
theorem evalHit_atFltMax :
    rayAabbSlab ⟨⟨1 - FLT_MAX, 1/2, 1/2⟩, ⟨1, 0, 0⟩⟩ ⟨⟨1, 0, 0⟩, ⟨2, 1, 1⟩⟩ =
      some FLT_MAX := by
  have a0 : slabAxis ⟨⟨1 - FLT_MAX, 1/2, 1/2⟩, ⟨1, 0, 0⟩⟩ ⟨⟨1, 0, 0⟩, ⟨2, 1, 1⟩⟩ 0
      (0, FLT_MAX) = some (FLT_MAX, FLT_MAX) := by
    norm_num [slabAxis, slabSort, slabTighten, Vec3.get, EPS, FLT_MAX]
  have a1 : slabAxis ⟨⟨1 - FLT_MAX, 1/2, 1/2⟩, ⟨1, 0, 0⟩⟩ ⟨⟨1, 0, 0⟩, ⟨2, 1, 1⟩⟩ 1
      (FLT_MAX, FLT_MAX) = some (FLT_MAX, FLT_MAX) := by
    norm_num [slabAxis, Vec3.get, EPS]
  have a2 : slabAxis ⟨⟨1 - FLT_MAX, 1/2, 1/2⟩, ⟨1, 0, 0⟩⟩ ⟨⟨1, 0, 0⟩, ⟨2, 1, 1⟩⟩ 2
      (FLT_MAX, FLT_MAX) = some (FLT_MAX, FLT_MAX) := by
    norm_num [slabAxis, Vec3.get, EPS]
  have hloop : slabLoop ⟨⟨1 - FLT_MAX, 1/2, 1/2⟩, ⟨1, 0, 0⟩⟩ ⟨⟨1, 0, 0⟩, ⟨2, 1, 1⟩⟩
      axesList (0, FLT_MAX) = some (FLT_MAX, FLT_MAX) := by
    rw [show axesList = [0, 1, 2] from rfl,
      slabLoop_cons_of_some _ _ _ _ _ _ a0,
      slabLoop_cons_of_some _ _ _ _ _ _ a1,
      slabLoop_cons_of_some _ _ _ _ _ _ a2,
      slabLoop_nil]
  rw [rayAabbSlab_of_loop_some _ _ (FLT_MAX, FLT_MAX)
    (by norm_num [insideAABB, FLT_MAX]) hloop]
  norm_num [slabFinish, FLT_MAX]

/-- Counterexample for C1 as stated: the single candidate's box is hit
(at `tNear = FLT_MAX`), yet the picker returns the no-hit sentinel `-1`
instead of the candidate's identifier, because the strict comparison
`tNear < closestT` fails against the initial `closestT = FLT_MAX`. -/
theorem claimC1_counterexample :
    rayAabbSlab ⟨⟨1 - FLT_MAX, 1/2, 1/2⟩, ⟨1, 0, 0⟩⟩ ⟨⟨1, 0, 0⟩, ⟨2, 1, 1⟩⟩ =
        some FLT_MAX ∧
    pickNearest ⟨⟨1 - FLT_MAX, 1/2, 1/2⟩, ⟨1, 0, 0⟩⟩
        [(7, ⟨⟨1, 0, 0⟩, ⟨2, 1, 1⟩⟩)] = -1 := by
  refine ⟨evalHit_atFltMax, ?_⟩
  show pickLoop _ _ _ _ = -1
  rw [pickLoop_cons_of_skip _ _ _ _ _ FLT_MAX evalHit_atFltMax
    (fun hc => absurd hc.2 (lt_irrefl FLT_MAX)), pickLoop_nil]

/-- A second extreme hit at exactly `tNear = FLT_MAX`, shifted to the box
`[2,3]x[0,1]x[0,1]`. -/
theorem evalHit_atFltMax2 :
    rayAabbSlab ⟨⟨2 - FLT_MAX, 1/2, 1/2⟩, ⟨1, 0, 0⟩⟩ ⟨⟨2, 0, 0⟩, ⟨3, 1, 1⟩⟩ =
      some FLT_MAX := by
  have a0 : slabAxis ⟨⟨2 - FLT_MAX, 1/2, 1/2⟩, ⟨1, 0, 0⟩⟩ ⟨⟨2, 0, 0⟩, ⟨3, 1, 1⟩⟩ 0
      (0, FLT_MAX) = some (FLT_MAX, FLT_MAX) := by
    norm_num [slabAxis, slabSort, slabTighten, Vec3.get, EPS, FLT_MAX]
  have a1 : slabAxis ⟨⟨2 - FLT_MAX, 1/2, 1/2⟩, ⟨1, 0, 0⟩⟩ ⟨⟨2, 0, 0⟩, ⟨3, 1, 1⟩⟩ 1
      (FLT_MAX, FLT_MAX) = some (FLT_MAX, FLT_MAX) := by
    norm_num [slabAxis, Vec3.get, EPS]
  have a2 : slabAxis ⟨⟨2 - FLT_MAX, 1/2, 1/2⟩, ⟨1, 0, 0⟩⟩ ⟨⟨2, 0, 0⟩, ⟨3, 1, 1⟩⟩ 2
      (FLT_MAX, FLT_MAX) = some (FLT_MAX, FLT_MAX) := by
    norm_num [slabAxis, Vec3.get, EPS]
  have hloop : slabLoop ⟨⟨2 - FLT_MAX, 1/2, 1/2⟩, ⟨1, 0, 0⟩⟩ ⟨⟨2, 0, 0⟩, ⟨3, 1, 1⟩⟩
      axesList (0, FLT_MAX) = some (FLT_MAX, FLT_MAX) := by
    rw [show axesList = [0, 1, 2] from rfl,
      slabLoop_cons_of_some _ _ _ _ _ _ a0,
      slabLoop_cons_of_some _ _ _ _ _ _ a1,
      slabLoop_cons_of_some _ _ _ _ _ _ a2,
      slabLoop_nil]
  rw [rayAabbSlab_of_loop_some _ _ (FLT_MAX, FLT_MAX)
    (by norm_num [insideAABB, FLT_MAX]) hloop]
  norm_num [slabFinish, FLT_MAX]

/-- Counterexample for C2 as stated: two candidates tie exactly at
`tNear = FLT_MAX` (a minimal hit value), yet the picker returns `-1`
rather than the identifier of the earlier candidate. -/
theorem claimC2_counterexample :
    rayAabbSlab ⟨⟨2 - FLT_MAX, 1/2, 1/2⟩, ⟨1, 0, 0⟩⟩ ⟨⟨2, 0, 0⟩, ⟨3, 1, 1⟩⟩ =
        some FLT_MAX ∧
    pickNearest ⟨⟨2 - FLT_MAX, 1/2, 1/2⟩, ⟨1, 0, 0⟩⟩
        [(3, ⟨⟨2, 0, 0⟩, ⟨3, 1, 1⟩⟩), (4, ⟨⟨2, 0, 0⟩, ⟨3, 1, 1⟩⟩)] = -1 := by
  refine ⟨evalHit_atFltMax2, ?_⟩
  show pickLoop _ _ _ _ = -1
  rw [pickLoop_cons_of_skip _ _ _ _ _ FLT_MAX evalHit_atFltMax2
    (fun hc => absurd hc.2 (lt_irrefl FLT_MAX)),
    pickLoop_cons_of_skip _ _ _ _ _ FLT_MAX evalHit_atFltMax2
    (fun hc => absurd hc.2 (lt_irrefl FLT_MAX)),
    pickLoop_nil]

/-- Evidence-hook ray `(0, 1, -2)` along `+z` against scene object 0: hit at
`tNear = 1`. -/
theorem evalScene_box0 :
    rayAabbSlab ⟨⟨0, 1, -2⟩, ⟨0, 0, 1⟩⟩ ⟨⟨-1, 0, -1⟩, ⟨1, 2, 1⟩⟩ = some 1 := by
  have a0 : slabAxis ⟨⟨0, 1, -2⟩, ⟨0, 0, 1⟩⟩ ⟨⟨-1, 0, -1⟩, ⟨1, 2, 1⟩⟩ 0
      (0, FLT_MAX) = some (0, FLT_MAX) := by
    norm_num [slabAxis, Vec3.get, EPS]
  have a1 : slabAxis ⟨⟨0, 1, -2⟩, ⟨0, 0, 1⟩⟩ ⟨⟨-1, 0, -1⟩, ⟨1, 2, 1⟩⟩ 1
      (0, FLT_MAX) = some (0, FLT_MAX) := by
    norm_num [slabAxis, Vec3.get, EPS]
  have a2 : slabAxis ⟨⟨0, 1, -2⟩, ⟨0, 0, 1⟩⟩ ⟨⟨-1, 0, -1⟩, ⟨1, 2, 1⟩⟩ 2
      (0, FLT_MAX) = some (1, 3) := by
    norm_num [slabAxis, slabSort, slabTighten, Vec3.get, EPS, FLT_MAX]
  have hloop : slabLoop ⟨⟨0, 1, -2⟩, ⟨0, 0, 1⟩⟩ ⟨⟨-1, 0, -1⟩, ⟨1, 2, 1⟩⟩
      axesList (0, FLT_MAX) = some (1, 3) := by
    rw [show axesList = [0, 1, 2] from rfl,
      slabLoop_cons_of_some _ _ _ _ _ _ a0,
      slabLoop_cons_of_some _ _ _ _ _ _ a1,
      slabLoop_cons_of_some _ _ _ _ _ _ a2,
      slabLoop_nil]
  rw [rayAabbSlab_of_loop_some _ _ (1, 3) (by norm_num [insideAABB]) hloop]
  norm_num [slabFinish]

/-- Evidence-hook ray against scene object 3: hit at `tNear = 4`. -/
theorem evalScene_box3 :
    rayAabbSlab ⟨⟨0, 1, -2⟩, ⟨0, 0, 1⟩⟩ ⟨⟨0, 0, 2⟩, ⟨1/2, 1, 5/2⟩⟩ = some 4 := by
  have a0 : slabAxis ⟨⟨0, 1, -2⟩, ⟨0, 0, 1⟩⟩ ⟨⟨0, 0, 2⟩, ⟨1/2, 1, 5/2⟩⟩ 0
      (0, FLT_MAX) = some (0, FLT_MAX) := by
    norm_num [slabAxis, Vec3.get, EPS]
  have a1 : slabAxis ⟨⟨0, 1, -2⟩, ⟨0, 0, 1⟩⟩ ⟨⟨0, 0, 2⟩, ⟨1/2, 1, 5/2⟩⟩ 1
      (0, FLT_MAX) = some (0, FLT_MAX) := by
    norm_num [slabAxis, Vec3.get, EPS]
  have a2 : slabAxis ⟨⟨0, 1, -2⟩, ⟨0, 0, 1⟩⟩ ⟨⟨0, 0, 2⟩, ⟨1/2, 1, 5/2⟩⟩ 2
      (0, FLT_MAX) = some (4, 9/2) := by
    norm_num [slabAxis, slabSort, slabTighten, Vec3.get, EPS, FLT_MAX]
  have hloop : slabLoop ⟨⟨0, 1, -2⟩, ⟨0, 0, 1⟩⟩ ⟨⟨0, 0, 2⟩, ⟨1/2, 1, 5/2⟩⟩
      axesList (0, FLT_MAX) = some (4, 9/2) := by
    rw [show axesList = [0, 1, 2] from rfl,
      slabLoop_cons_of_some _ _ _ _ _ _ a0,
      slabLoop_cons_of_some _ _ _ _ _ _ a1,
      slabLoop_cons_of_some _ _ _ _ _ _ a2,
      slabLoop_nil]
  rw [rayAabbSlab_of_loop_some _ _ (4, 9/2) (by norm_num [insideAABB]) hloop]
  norm_num [slabFinish]

/-- The evidence-hook ray picks scene object 0 (the nearer of the two hits,
at `tNear = 1` against object 3's `tNear = 4`). -/
theorem evalScene_pick :
    pickObjectId ⟨⟨0, 1, -2⟩, ⟨0, 0, 1⟩⟩ = 0 := by
  have e1 : rayAabbSlab ⟨⟨0, 1, -2⟩, ⟨0, 0, 1⟩⟩ ⟨⟨2, 0, -1/2⟩, ⟨3, 3/2, 1/2⟩⟩ = none :=
    rayAabbSlab_none_of_parallel_outside _ _ 0
      (by norm_num [Vec3.get, EPS]) (Or.inl (by norm_num [Vec3.get]))
  have e2 : rayAabbSlab ⟨⟨0, 1, -2⟩, ⟨0, 0, 1⟩⟩ ⟨⟨-2, 0, 1⟩, ⟨-3/2, 1/2, 2⟩⟩ = none :=
    rayAabbSlab_none_of_parallel_outside _ _ 0
      (by norm_num [Vec3.get, EPS]) (Or.inr (by norm_num [Vec3.get]))
  have e4 : rayAabbSlab ⟨⟨0, 1, -2⟩, ⟨0, 0, 1⟩⟩ ⟨⟨-1/2, 0, -2⟩, ⟨1/2, 3/10, -3/2⟩⟩ = none :=
    rayAabbSlab_none_of_parallel_outside _ _ 1
      (by norm_num [Vec3.get, EPS]) (Or.inr (by norm_num [Vec3.get]))
  show pickLoop _ sceneObjects _ _ = 0
  unfold sceneObjects
  rw [pickLoop_cons_of_take _ _ _ _ _ 1 evalScene_box0
      ⟨by norm_num, by norm_num [FLT_MAX]⟩,
    pickLoop_cons_of_miss _ _ _ _ _ e1,
    pickLoop_cons_of_miss _ _ _ _ _ e2,
    pickLoop_cons_of_skip _ _ _ _ _ 4 evalScene_box3 (by norm_num),
    pickLoop_cons_of_miss _ _ _ _ _ e4,
    pickLoop_nil]

/-- Witness for C9 at the evidence-hook ray, which picks identifier 0. -/
theorem claimC9_witness :
    ∃ box t, (pickObjectId ⟨⟨0, 1, -2⟩, ⟨0, 0, 1⟩⟩, box) ∈ sceneObjects ∧
      rayAabbSlab ⟨⟨0, 1, -2⟩, ⟨0, 0, 1⟩⟩ box = some t ∧
      ∀ p ∈ sceneObjects, ∀ u,
        rayAabbSlab ⟨⟨0, 1, -2⟩, ⟨0, 0, 1⟩⟩ p.2 = some u → t ≤ u :=
  (claimC9_pickObjectId_sound ⟨⟨0, 1, -2⟩, ⟨0, 0, 1⟩⟩).2
    (by rw [evalScene_pick])

/-! ## Equivalence of the implemented and plan slab variants -/

theorem planSort_eq_minmax (ta tb : ℚ) :
    planSort ta tb = (min ta tb, max ta tb) := by
  unfold planSort
  rcases le_or_lt ta tb with h | h
  · rw [if_neg (not_lt_of_le h), min_eq_left h, max_eq_right h]
  · rw [if_pos h, min_eq_right (le_of_lt h), max_eq_left (le_of_lt h)]

theorem slabSort_slab_eq (d o bmin bmax : ℚ) (hd : d ≠ 0) (hbb : bmin ≤ bmax) :
    slabSort (1 / d) ((bmin - o) * (1 / d)) ((bmax - o) * (1 / d)) =
      (min ((bmin - o) * (1 / d)) ((bmax - o) * (1 / d)),
       max ((bmin - o) * (1 / d)) ((bmax - o) * (1 / d))) := by
  unfold slabSort
  rcases lt_trichotomy (1 / d) 0 with hneg | hzero | hpos
  · have hle : (bmax - o) * (1 / d) ≤ (bmin - o) * (1 / d) :=
      mul_le_mul_of_nonpos_right (sub_le_sub_right hbb o) (le_of_lt hneg)
    rw [if_pos hneg, min_eq_right hle, max_eq_left hle]
  · exact absurd hzero (one_div_ne_zero hd)
  · have hle : (bmin - o) * (1 / d) ≤ (bmax - o) * (1 / d) :=
      mul_le_mul_of_nonneg_right (sub_le_sub_right hbb o) (le_of_lt hpos)
    rw [if_neg (not_lt_of_lt hpos), min_eq_left hle, max_eq_right hle]

theorem axis_step_equiv (r : Ray) (box : AABB) (a : Fin 3)
    (hbb : box.min.get a ≤ box.max.get a)
    (hbound : ¬ |r.dir.get a| < EPS →
      (box.min.get a - r.origin.get a) * (1 / r.dir.get a) ≤ FLT_MAX ∧
      (box.max.get a - r.origin.get a) * (1 / r.dir.get a) ≤ FLT_MAX)
    (stI : ℚ × ℚ) (stP : ℚ × WithTop ℚ)
    (h1 : stI.1 = stP.1) (h2 : (stI.2 : WithTop ℚ) = min (FLT_MAX : WithTop ℚ) stP.2)
    (h3 : stI.1 ≤ FLT_MAX) :
    (slabAxis r box a stI = none ∧ planAxis r box a stP = none) ∨
    (∃ uI uP, slabAxis r box a stI = some uI ∧ planAxis r box a stP = some uP ∧
      uI.1 = uP.1 ∧ (uI.2 : WithTop ℚ) = min (FLT_MAX : WithTop ℚ) uP.2 ∧
      uI.1 ≤ FLT_MAX) := by
  rw [slabAxis, planAxis]
  by_cases hpar : |r.dir.get a| < EPS
  · rw [if_pos hpar, if_pos hpar]
    by_cases hout : r.origin.get a < box.min.get a ∨ r.origin.get a > box.max.get a
    · rw [if_pos hout, if_pos hout]
      exact Or.inl ⟨rfl, rfl⟩
    · rw [if_neg hout, if_neg hout]
      exact Or.inr ⟨stI, stP, rfl, rfl, h1, h2, h3⟩
  · rw [if_neg hpar, if_neg hpar]
    have hd : r.dir.get a ≠ 0 := by
      intro h0
      apply hpar
      rw [h0]
      norm_num [EPS]
    obtain ⟨hb1, hb2⟩ := hbound hpar
    set ta := (box.min.get a - r.origin.get a) * (1 / r.dir.get a) with hta
    set tb := (box.max.get a - r.origin.get a) * (1 / r.dir.get a) with htb
    rw [slabSort_slab_eq _ _ _ _ hd hbb, planSort_eq_minmax, slabTighten_eq]
    unfold planTighten
    dsimp only
    have hsF : min ta tb ≤ FLT_MAX := le_trans (min_le_left _ _) hb1
    have hmF : max ta tb ≤ FLT_MAX := max_le hb1 hb2
    have hmeq : max stI.1 (min ta tb) = max stP.1 (min ta tb) := by rw [h1]
    have hmle : max stI.1 (min ta tb) ≤ FLT_MAX := max_le h3 hsF
    have hnewmax : ((min stI.2 (max ta tb) : ℚ) : WithTop ℚ) =
        min (FLT_MAX : WithTop ℚ) (min stP.2 ((max ta tb : ℚ) : WithTop ℚ)) := by
      rw [WithTop.coe_min, h2, min_assoc]
    have hmiss : (max stI.1 (min ta tb) > min stI.2 (max ta tb)) ↔
        (((max stP.1 (min ta tb) : ℚ) : WithTop ℚ) >
          min stP.2 ((max ta tb : ℚ) : WithTop ℚ)) := by
      rw [← hmeq]
      constructor
      · intro h
        have hc : ((min stI.2 (max ta tb) : ℚ) : WithTop ℚ) <
            ((max stI.1 (min ta tb) : ℚ) : WithTop ℚ) := WithTop.coe_lt_coe.mpr h
        rw [hnewmax] at hc
        rcases min_lt_iff.mp hc with hF | hX
        · exact absurd (WithTop.coe_le_coe.mpr hmle) (not_le_of_lt hF)
        · exact hX
      · intro h
        apply WithTop.coe_lt_coe.mp
        rw [hnewmax]
        exact lt_of_le_of_lt (min_le_right _ _) h
    by_cases hmp : max stI.1 (min ta tb) > min stI.2 (max ta tb)
    · rw [if_pos hmp, if_pos (hmiss.mp hmp)]
      exact Or.inl ⟨rfl, rfl⟩
    · rw [if_neg hmp, if_neg (fun hc => hmp (hmiss.mpr hc))]
      refine Or.inr ⟨(max stI.1 (min ta tb), min stI.2 (max ta tb)),
        (max stP.1 (min ta tb), min stP.2 ((max ta tb : ℚ) : WithTop ℚ)),
        rfl, rfl, hmeq, hnewmax, hmle⟩

theorem slabLoop_eq_planLoop (r : Ray) (box : AABB) :
    ∀ (axes : List (Fin 3)),
      (∀ a ∈ axes, box.min.get a ≤ box.max.get a) →
      (∀ a ∈ axes, ¬ |r.dir.get a| < EPS →
        (box.min.get a - r.origin.get a) * (1 / r.dir.get a) ≤ FLT_MAX ∧
        (box.max.get a - r.origin.get a) * (1 / r.dir.get a) ≤ FLT_MAX) →
      ∀ (stI : ℚ × ℚ) (stP : ℚ × WithTop ℚ),
        stI.1 = stP.1 → (stI.2 : WithTop ℚ) = min (FLT_MAX : WithTop ℚ) stP.2 →
        stI.1 ≤ FLT_MAX →
        (slabLoop r box axes stI = none ∧ planLoop r box axes stP = none) ∨
        (∃ uI uP, slabLoop r box axes stI = some uI ∧ planLoop r box axes stP = some uP ∧
          uI.1 = uP.1 ∧ (uI.2 : WithTop ℚ) = min (FLT_MAX : WithTop ℚ) uP.2 ∧
          uI.1 ≤ FLT_MAX) := by
  intro axes
  induction axes with
  | nil =>
    intro hbb hbound stI stP h1 h2 h3
    exact Or.inr ⟨stI, stP, slabLoop_nil r box stI, planLoop_nil r box stP, h1, h2, h3⟩
  | cons a rest ih =>
    intro hbb hbound stI stP h1 h2 h3
    rcases axis_step_equiv r box a (hbb a (List.mem_cons_self a rest))
        (hbound a (List.mem_cons_self a rest)) stI stP h1 h2 h3 with
      ⟨hnI, hnP⟩ | ⟨uI, uP, hI, hP, hu1, hu2, hu3⟩
    · exact Or.inl ⟨slabLoop_cons_of_none r box a rest stI hnI,
        planLoop_cons_of_none r box a rest stP hnP⟩
    · rw [slabLoop_cons_of_some r box a rest stI uI hI,
        planLoop_cons_of_some r box a rest stP uP hP]
      exact ih (fun b hb => hbb b (List.mem_cons_of_mem a hb))
        (fun b hb => hbound b (List.mem_cons_of_mem a hb)) uI uP hu1 hu2 hu3

theorem planAxis_inside (r : Ray) (box : AABB) (a : Fin 3)
    (hin : box.min.get a ≤ r.origin.get a ∧ r.origin.get a ≤ box.max.get a)
    (st : ℚ × WithTop ℚ) (h1 : st.1 = 0) (h2 : (0 : WithTop ℚ) ≤ st.2) :
    ∃ u, planAxis r box a st = some u ∧ u.1 = 0 ∧ (0 : WithTop ℚ) ≤ u.2 := by
  rw [planAxis]
  by_cases hpar : |r.dir.get a| < EPS
  · rw [if_pos hpar, if_neg (by push_neg; exact ⟨hin.1, hin.2⟩)]
    exact ⟨st, rfl, h1, h2⟩
  · rw [if_neg hpar]
    have hd : r.dir.get a ≠ 0 := by
      intro h0
      apply hpar
      rw [h0]
      norm_num [EPS]
    set ta := (box.min.get a - r.origin.get a) * (1 / r.dir.get a) with hta
    set tb := (box.max.get a - r.origin.get a) * (1 / r.dir.get a) with htb
    rw [planSort_eq_minmax]
    unfold planTighten
    dsimp only
    have hstraddle : min ta tb ≤ 0 ∧ 0 ≤ max ta tb := by
      rcases lt_trichotomy (1 / r.dir.get a) 0 with hneg | hzero | hpos
      · constructor
        · refine min_le_iff.mpr (Or.inr ?_)
          exact mul_nonpos_iff.mpr (Or.inl ⟨sub_nonneg.mpr hin.2, le_of_lt hneg⟩)
        · refine le_max_iff.mpr (Or.inl ?_)
          rw [hta]
          have hb : box.min.get a - r.origin.get a ≤ 0 := sub_nonpos.mpr hin.1
          nlinarith
      · exact absurd hzero (one_div_ne_zero hd)
      · constructor
        · refine min_le_iff.mpr (Or.inl ?_)
          exact mul_nonpos_iff.mpr (Or.inr ⟨sub_nonpos.mpr hin.1, le_of_lt hpos⟩)
        · refine le_max_iff.mpr (Or.inr ?_)
          exact mul_nonneg (sub_nonneg.mpr hin.2) (le_of_lt hpos)
    have hm : max st.1 (min ta tb) = 0 := by
      rw [h1]
      exact max_eq_left hstraddle.1
    have hx : (0 : WithTop ℚ) ≤ min st.2 ((max ta tb : ℚ) : WithTop ℚ) := by
      refine le_min h2 ?_
      exact_mod_cast hstraddle.2
    have hcond : ¬ ((max st.1 (min ta tb) : ℚ) : WithTop ℚ) >
        min st.2 ((max ta tb : ℚ) : WithTop ℚ) := by
      rw [hm]
      intro hc
      refine absurd hx (not_le_of_lt ?_)
      exact_mod_cast hc
    rw [if_neg hcond]
    refine ⟨_, rfl, ?_, hx⟩
    dsimp only
    exact hm

theorem planLoop_inside (r : Ray) (box : AABB) :
    ∀ (axes : List (Fin 3)),
      (∀ a ∈ axes, box.min.get a ≤ r.origin.get a ∧ r.origin.get a ≤ box.max.get a) →
      ∀ st : ℚ × WithTop ℚ, st.1 = 0 → (0 : WithTop ℚ) ≤ st.2 →
        ∃ u, planLoop r box axes st = some u ∧ u.1 = 0 := by
  intro axes
  induction axes with
  | nil =>
    intro hin st h1 h2
    exact ⟨st, planLoop_nil r box st, h1⟩
  | cons a rest ih =>
    intro hin st h1 h2
    obtain ⟨u, hu, hu1, hu2⟩ := planAxis_inside r box a (hin a (List.mem_cons_self a rest)) st h1 h2
    obtain ⟨v, hv, hv1⟩ := ih (fun b hb => hin b (List.mem_cons_of_mem a hb)) u hu1 hu2
    exact ⟨v, by rw [planLoop_cons_of_some r box a rest st u hu]; exact hv, hv1⟩

theorem rayAabbSlabPlan_of_loop_none (r : Ray) (box : AABB)
    (h : planLoop r box axesList (0, ⊤) = none) :
    rayAabbSlabPlan r box = none := by
  rw [rayAabbSlabPlan_eq, h]

theorem rayAabbSlabPlan_of_inside (r : Ray) (box : AABB)
    (hin : insideAABB r.origin box) :
    rayAabbSlabPlan r box = some 0 := by
  obtain ⟨u, hl, hu⟩ := planLoop_inside r box axesList
    (fun a _ => (insideAABB_iff r.origin box).mp hin a) (0, ⊤) rfl le_top
  rw [rayAabbSlabPlan_of_loop_some r box u hl, hu]
  norm_num

/-- C8 (amended): the implemented slab helper and the Milestone-One plan
variant agree on every ray and box with `min <= max`, provided on every
non-parallel axis both slab t-values stay at or below `FLT_MAX` (the
implemented variant's initial `tMax`). -/
theorem claimC8_variants_agree (r : Ray) (box : AABB)
    (hbb : ∀ a : Fin 3, box.min.get a ≤ box.max.get a)
    (hbound : ∀ a : Fin 3, ¬ |r.dir.get a| < EPS →
      (box.min.get a - r.origin.get a) * (1 / r.dir.get a) ≤ FLT_MAX ∧
      (box.max.get a - r.origin.get a) * (1 / r.dir.get a) ≤ FLT_MAX) :
    rayAabbSlab r box = rayAabbSlabPlan r box := by
  by_cases hin : insideAABB r.origin box
  · rw [rayAabbSlab_of_inside r box hin, rayAabbSlabPlan_of_inside r box hin]
  · rcases slabLoop_eq_planLoop r box axesList (fun a _ => hbb a) (fun a _ => hbound a)
      (0, FLT_MAX) (0, ⊤) rfl (min_eq_left le_top).symm (by norm_num [FLT_MAX]) with
      ⟨hnI, hnP⟩ | ⟨uI, uP, hI, hP, hu1, hu2, hu3⟩
    · rw [rayAabbSlab_of_loop_none r box hin hnI, rayAabbSlabPlan_of_loop_none r box hnP]
    · rw [rayAabbSlab_of_loop_some r box uI hin hI, rayAabbSlabPlan_of_loop_some r box uP hP]
      have h0 : 0 ≤ uI.1 := (slabLoop_some_props r box axesList (0, FLT_MAX) uI hI).1
      unfold slabFinish
      rw [if_pos h0, hu1, if_pos (hu1 ▸ h0)]

theorem planAxis_parallel_pass (r : Ray) (box : AABB) (a : Fin 3) (st : ℚ × WithTop ℚ)
    (hpar : |r.dir.get a| < EPS)
    (hrange : ¬ (r.origin.get a < box.min.get a ∨ r.origin.get a > box.max.get a)) :
    planAxis r box a st = some st := by
  rw [planAxis, if_pos hpar, if_neg hrange]

/-- Counterexample for C8 as stated: for a far-away box (with `min <= max`)
and a just-not-parallel direction, the slab t-values exceed `FLT_MAX`; the
implemented variant's `tMax`, started at `FLT_MAX`, then stays below `tMin`
and the slab loop reports a miss, while the plan variant, whose `tmax`
starts at infinity, reports a hit. -/
theorem claimC8_counterexample :
    (∀ a : Fin 3, (⟨⟨FLT_MAX, 0, 0⟩, ⟨FLT_MAX + 1, 1, 1⟩⟩ : AABB).min.get a ≤
      (⟨⟨FLT_MAX, 0, 0⟩, ⟨FLT_MAX + 1, 1, 1⟩⟩ : AABB).max.get a) ∧
    rayAabbSlab ⟨⟨0, 1/2, 1/2⟩, ⟨1/1000000, 0, 0⟩⟩
      ⟨⟨FLT_MAX, 0, 0⟩, ⟨FLT_MAX + 1, 1, 1⟩⟩ = none ∧
    rayAabbSlabPlan ⟨⟨0, 1/2, 1/2⟩, ⟨1/1000000, 0, 0⟩⟩
      ⟨⟨FLT_MAX, 0, 0⟩, ⟨FLT_MAX + 1, 1, 1⟩⟩ = some (FLT_MAX * 1000000) := by
  have habs : |(1 : ℚ)/1000000| = 1/1000000 := abs_of_pos (by norm_num)
  refine ⟨by intro a; fin_cases a <;> norm_num [Vec3.get, FLT_MAX], ?_, ?_⟩
  · have a0 : slabAxis ⟨⟨0, 1/2, 1/2⟩, ⟨1/1000000, 0, 0⟩⟩
        ⟨⟨FLT_MAX, 0, 0⟩, ⟨FLT_MAX + 1, 1, 1⟩⟩ 0 (0, FLT_MAX) = none := by
      norm_num [slabAxis, slabSort, slabTighten, Vec3.get, EPS, FLT_MAX, habs]
    refine rayAabbSlab_of_loop_none _ _ (by norm_num [insideAABB, FLT_MAX]) ?_
    rw [show axesList = [0, 1, 2] from rfl, slabLoop_cons_of_none _ _ _ _ _ a0]
  · have p0 : planAxis ⟨⟨0, 1/2, 1/2⟩, ⟨1/1000000, 0, 0⟩⟩
        ⟨⟨FLT_MAX, 0, 0⟩, ⟨FLT_MAX + 1, 1, 1⟩⟩ 0 (0, ⊤) =
        some (FLT_MAX * 1000000, (((FLT_MAX + 1) * 1000000 : ℚ) : WithTop ℚ)) := by
      norm_num [planAxis, planSort, planTighten, Vec3.get, EPS, FLT_MAX, habs,
        WithTop.coe_lt_coe]
      intro h
      norm_cast at h
    have p1 : planAxis ⟨⟨0, 1/2, 1/2⟩, ⟨1/1000000, 0, 0⟩⟩
        ⟨⟨FLT_MAX, 0, 0⟩, ⟨FLT_MAX + 1, 1, 1⟩⟩ 1
        (FLT_MAX * 1000000, (((FLT_MAX + 1) * 1000000 : ℚ) : WithTop ℚ)) =
        some (FLT_MAX * 1000000, (((FLT_MAX + 1) * 1000000 : ℚ) : WithTop ℚ)) :=
      planAxis_parallel_pass _ _ _ _ (by norm_num [Vec3.get, EPS])
        (by norm_num [Vec3.get])
    have p2 : planAxis ⟨⟨0, 1/2, 1/2⟩, ⟨1/1000000, 0, 0⟩⟩
        ⟨⟨FLT_MAX, 0, 0⟩, ⟨FLT_MAX + 1, 1, 1⟩⟩ 2
        (FLT_MAX * 1000000, (((FLT_MAX + 1) * 1000000 : ℚ) : WithTop ℚ)) =
        some (FLT_MAX * 1000000, (((FLT_MAX + 1) * 1000000 : ℚ) : WithTop ℚ)) :=
      planAxis_parallel_pass _ _ _ _ (by norm_num [Vec3.get, EPS])
        (by norm_num [Vec3.get])
    have hploop : planLoop ⟨⟨0, 1/2, 1/2⟩, ⟨1/1000000, 0, 0⟩⟩
        ⟨⟨FLT_MAX, 0, 0⟩, ⟨FLT_MAX + 1, 1, 1⟩⟩ axesList (0, ⊤) =
        some (FLT_MAX * 1000000, (((FLT_MAX + 1) * 1000000 : ℚ) : WithTop ℚ)) := by
      rw [show axesList = [0, 1, 2] from rfl,
        planLoop_cons_of_some _ _ _ _ _ _ p0,
        planLoop_cons_of_some _ _ _ _ _ _ p1,
        planLoop_cons_of_some _ _ _ _ _ _ p2,
        planLoop_nil]
    rw [rayAabbSlabPlan_of_loop_some _ _ _ hploop]
    norm_num [FLT_MAX]

/-- Witness for C8 (amended) at a concrete well-bounded ray and box: both
variants return the identical hit. -/
theorem claimC8_witness :
    rayAabbSlab ⟨⟨-2, 1/2, 1/2⟩, ⟨1, 0, 0⟩⟩ ⟨⟨0, 0, 0⟩, ⟨1, 1, 1⟩⟩ =
      rayAabbSlabPlan ⟨⟨-2, 1/2, 1/2⟩, ⟨1, 0, 0⟩⟩ ⟨⟨0, 0, 0⟩, ⟨1, 1, 1⟩⟩ :=
  claimC8_variants_agree ⟨⟨-2, 1/2, 1/2⟩, ⟨1, 0, 0⟩⟩ ⟨⟨0, 0, 0⟩, ⟨1, 1, 1⟩⟩
    (by intro a; fin_cases a <;> norm_num [Vec3.get])
    (by
      intro a
      fin_cases a
      · intro h
        constructor <;> norm_num [Vec3.get, FLT_MAX]
      · intro h
        exact absurd (by norm_num [Vec3.get, EPS]) h
      · intro h
        exact absurd (by norm_num [Vec3.get, EPS]) h)
